import Mathlib

/-!
Shallow embedding of `src/eval.cpp`, a command-line arithmetic-expression
evaluator.  The program tokenizes an input line, parses it with a
recursive-descent precedence grammar (`level1` .. `level_top`), compiles it
into a flat instruction sequence (`symbols`, indices into a `constants`
pool), and replays that sequence twice: `understanding` renders a fully
parenthesized string, `run` computes numeric results.

Modelling conventions:
* The input line is a `List Char`; `charAt` reads position `pos` and yields
  the NUL character past the end, matching the C string's terminator.
* C++ `double` values are modelled by `Dbl`, the exact decimal value
  `m * 10 ^ e` that `strtod` reads (idealized: no binary64 rounding, no
  overflow to infinity, and only `strtod`'s decimal grammar, which is the
  grammar the program's comments document).  Arithmetic on these values is
  performed in `ℝ` by the interpreter `run`.
* Mutually recursive parsing functions are combined into the single fueled
  function `levels`, one `Mode` per C++ function (plus one per C++ `while`
  loop body).  Fuel exhaustion is the distinct outcome `PRes.noFuel`;
  `PRes.ok` / `PRes.err` model `return true` / `return false`.
* Console output matters to the spec only as (a) error diagnostics and
  (b) per-statement results; the model records (a) in `PState.errors`
  (message text only, without the snippet/caret decoration) and (b) in the
  result lists carried by `URes` / `RRes`.
-/

-- ## Character classification (C locale over ASCII, as used by the source)

def isdigit (c : Char) : Bool := decide (48 ≤ c.toNat ∧ c.toNat ≤ 57)

def isalpha (c : Char) : Bool :=
  decide ((97 ≤ c.toNat ∧ c.toNat ≤ 122) ∨ (65 ≤ c.toNat ∧ c.toNat ≤ 90))

def isalnum (c : Char) : Bool := isalpha c || isdigit c

/-- Source `Evaluator::isname`: alphanumeric or underscore. -/
def isname (c : Char) : Bool := isalnum c || decide (c.toNat = 95)

def isspace (c : Char) : Bool := decide (c.toNat = 32 ∨ (9 ≤ c.toNat ∧ c.toNat ≤ 13))

/-- The NUL terminator of the C string. -/
def nulChar : Char := Char.ofNat 0

/-- Reading `line[pos]`: past the end of the line the C string yields NUL. -/
def charAt (line : List Char) (pos : Nat) : Char := line.getD pos nulChar

def str (s : String) : List Char := s.toList

-- ## Idealized doubles

/-- Idealized model of a C++ `double` as read by `strtod`: the exact
rational value `m * 10 ^ e`. -/
structure Dbl where
  m : Int
  e : Int
deriving DecidableEq, Repr

/-- The real value of a `Dbl`; used by the numeric interpreter. -/
noncomputable def dblToR (d : Dbl) : ℝ := (d.m : ℝ) * (10 : ℝ) ^ d.e

-- ## Lexing helpers (source `eatspace`, `nextch`, `get_name`, `get_double`)

/-- Fueled loop of `eatspace`; the fuel `line.length + 1` used by `eatspace`
always suffices because each iteration consumes one in-range character. -/
def eatspaceF : Nat → List Char → Nat → Nat
  | 0, _, pos => pos
  | f+1, line, pos => if isspace (charAt line pos) then eatspaceF f line (pos+1) else pos

/-- Source `Evaluator::eatspace`: skip whitespace from `pos`. -/
def eatspace (line : List Char) (pos : Nat) : Nat := eatspaceF (line.length + 1) line pos

/-- Source `Evaluator::nextch`: advance one character, then skip whitespace. -/
def nextch (line : List Char) (pos : Nat) : Nat := eatspace line (pos + 1)

/-- Fueled loop of `get_name`'s do-while; fuel `line.length + 2` always
suffices. -/
def get_nameF : Nat → List Char → Nat → List Char × Nat
  | 0, _, pos => ([], pos)
  | f+1, line, pos =>
    if isname (charAt line (pos+1)) then
      let r := get_nameF f line (pos+1)
      (charAt line pos :: r.1, r.2)
    else ([charAt line pos], pos + 1)

/-- Source `Evaluator::get_name`: extract a maximal name starting at `pos`
(the first character is taken unconditionally, as in the do-while). -/
def get_name (line : List Char) (pos : Nat) : String × Nat :=
  let r := get_nameF (line.length + 2) line pos
  (String.mk r.1, r.2)

def digitsToNat (ds : List Char) : Nat :=
  ds.foldl (fun a c => 10 * a + (c.toNat - 48)) 0

/-- Fueled maximal digit-run reader used by the `strtod` model. -/
def readDigitsF : Nat → List Char → Nat → List Char × Nat
  | 0, _, pos => ([], pos)
  | f+1, line, pos =>
    if isdigit (charAt line pos) then
      let r := readDigitsF f line (pos+1)
      (charAt line pos :: r.1, r.2)
    else ([], pos)

def readDigits (line : List Char) (pos : Nat) : List Char × Nat :=
  readDigitsF (line.length + 1) line pos

/-- Source `Evaluator::get_double`, i.e. `strtod` at `&line[pos]` followed by
advancing `pos` to the end pointer.  Modelled for the decimal grammar
(digits, optional fraction, optional exponent whose `e`/sign is consumed only
when at least one exponent digit follows), which covers every call site: the
source only calls this when `isdigit (charAt line pos)` holds. -/
def get_double (line : List Char) (pos : Nat) : Dbl × Nat :=
  let ip := readDigits line pos
  let fr := if charAt line ip.2 = '.' then readDigits line (ip.2 + 1) else ([], ip.2)
  let ex :=
    if charAt line fr.2 = 'e' ∨ charAt line fr.2 = 'E' then
      let sp :=
        if charAt line (fr.2 + 1) = '+' then ((1 : Int), fr.2 + 2)
        else if charAt line (fr.2 + 1) = '-' then ((-1 : Int), fr.2 + 2)
        else ((1 : Int), fr.2 + 1)
      let eds := readDigits line sp.2
      if eds.1 = [] then ((0 : Int), fr.2) else (sp.1 * (digitsToNat eds.1 : Int), eds.2)
    else ((0 : Int), fr.2)
  (⟨(digitsToNat (ip.1 ++ fr.1) : Int), ex.1 - (fr.1.length : Int)⟩, ex.2)

-- ## Symbols (compiled instructions) and varTable

inductive SymbolType where
  | ASSIGN
  | CONSTANT
  | MATHFN
  | OPERATOR
deriving DecidableEq, Repr

/-- Source `Symb`: a tag plus an overloaded `unsigned int` operand
(constant-pool index, `MathFunctions` id, or operator character code). -/
structure Symb where
  type : SymbolType
  value : Nat
deriving DecidableEq, Repr

-- Source `enum MathFunctions` values.
def EXP : Nat := 0
def COS : Nat := 1
def LOG : Nat := 2
def SIN : Nat := 3
def TAN : Nat := 4

/-- Source `Variable`: a named value. -/
structure Variable where
  name : String
  value : Dbl
deriving DecidableEq, Repr

/-- The pre-seeded variable table built by the `Evaluator` constructor:
`e = 2.7182818284590452353603` and `pi = 3.1415926535897932384626`
(idealized to the exact decimal literals of the source). -/
def varTable : List Variable :=
  [⟨"e", ⟨27182818284590452353603, -22⟩⟩, ⟨"pi", ⟨31415926535897932384626, -22⟩⟩]

def find_variableAux : List Variable → String → Nat
  | [], _ => 0
  | v :: vs, nm => if v.name = nm then 0 else 1 + find_variableAux vs nm

/-- Source `Evaluator::find_variable`: index of `nm` in `varTable`, or
`varTable.length` when absent. -/
def find_variable (nm : String) : Nat := find_variableAux varTable nm

-- ## Parser state and results

/-- The parser's mutable state: the constant pool, the compiled instruction
sequence, the cursor, and the error messages printed so far. -/
structure PState where
  constants : List Dbl
  symbols : List Symb
  pos : Nat
  errors : List String
deriving DecidableEq, Repr

/-- Outcome of a parsing function: `ok` / `err` model `return true` /
`return false`; `noFuel` is fuel exhaustion (no C++ counterpart). -/
inductive PRes where
  | ok (st : PState)
  | err (st : PState)
  | noFuel
deriving DecidableEq, Repr

def pushSym (st : PState) (s : Symb) : PState :=
  ⟨st.constants, st.symbols ++ [s], st.pos, st.errors⟩

def withPos (st : PState) (p : Nat) : PState :=
  ⟨st.constants, st.symbols, p, st.errors⟩

def pushErr (st : PState) (msg : String) : PState :=
  ⟨st.constants, st.symbols, st.pos, st.errors ++ [msg]⟩

/-- `constants.push_back(d)` followed by `symbols.push_back(Symb(CONSTANT,
constants.size() - 1))`, with the cursor left at `p`. -/
def pushConstant (st : PState) (d : Dbl) (p : Nat) : PState :=
  ⟨st.constants ++ [d], st.symbols ++ [⟨.CONSTANT, st.constants.length⟩], p, st.errors⟩

/-- One mode per parsing function of the source (`level1` .. `level_top` and
`parse`), plus one mode per C++ `while` loop inside them. -/
inductive Mode where
  | l1
  | l1loop
  | l2
  | l2loop
  | l3
  | l4
  | l4loop
  | ltop
  | ploop
deriving DecidableEq, Repr

/-- The recursive-descent parser of the source, `level1` .. `level_top` and
the statement loop of `parse`, combined into one fueled function.  Bodies
mirror the C++ line by line; in particular the `unexpected end of input`
branch of `level_top` records the error but still returns `ok` — exactly as
the source, whose branch at src/eval.cpp:363-366 lacks a `return false`. -/
def levels : Nat → Mode → List Char → PState → PRes
  | 0, _, _, _ => .noFuel
  | fuel+1, mode, line, st =>
    match mode with
    | .l1 =>
      match levels fuel .l2 line st with
      | .ok st1 => levels fuel .l1loop line st1
      | r => r
    | .l1loop =>
      if charAt line st.pos = '+' ∨ charAt line st.pos = '-' then
        let op := charAt line st.pos
        match levels fuel .l2 line (withPos st (nextch line st.pos)) with
        | .ok st1 => levels fuel .l1loop line (pushSym st1 ⟨.OPERATOR, op.toNat⟩)
        | r => r
      else .ok st
    | .l2 =>
      match levels fuel .l3 line st with
      | .ok st1 => levels fuel .l2loop line st1
      | r => r
    | .l2loop =>
      if charAt line st.pos = '*' ∨ charAt line st.pos = '/' then
        let op := charAt line st.pos
        match levels fuel .l3 line (withPos st (nextch line st.pos)) with
        | .ok st1 => levels fuel .l2loop line (pushSym st1 ⟨.OPERATOR, op.toNat⟩)
        | r => r
      else .ok st
    | .l3 =>
      if charAt line st.pos = '-' then
        match levels fuel .l3 line (withPos st (nextch line st.pos)) with
        | .ok st1 => .ok (pushSym st1 ⟨.OPERATOR, 'n'.toNat⟩)
        | r => r
      else levels fuel .l4 line st
    | .l4 =>
      match levels fuel .ltop line st with
      | .ok st1 => levels fuel .l4loop line st1
      | r => r
    | .l4loop =>
      if charAt line st.pos = '^' then
        match levels fuel .l3 line (withPos st (nextch line st.pos)) with
        | .ok st1 => levels fuel .l4loop line (pushSym st1 ⟨.OPERATOR, '^'.toNat⟩)
        | r => r
      else .ok st
    | .ltop =>
      if isdigit (charAt line st.pos) then
        let gd := get_double line st.pos
        .ok (pushConstant st gd.1 (eatspace line gd.2))
      else if charAt line st.pos = '(' then
        match levels fuel .l1 line (withPos st (nextch line st.pos)) with
        | .ok st1 =>
          if charAt line st1.pos = ')' then .ok (withPos st1 (nextch line st1.pos))
          else .err (pushErr st1 ("expected \x27)\x27"))
        | r => r
      else if isalpha (charAt line st.pos) ∨ charAt line st.pos = '_' then
        let gn := get_name line st.pos
        let st1 := withPos st (eatspace line gn.2)
        if gn.1 = "cos" then
          match levels fuel .l3 line st1 with
          | .ok st2 => .ok (pushSym st2 ⟨.MATHFN, COS⟩)
          | r => r
        else if gn.1 = "exp" then
          match levels fuel .l3 line st1 with
          | .ok st2 => .ok (pushSym st2 ⟨.MATHFN, EXP⟩)
          | r => r
        else if gn.1 = "log" then
          match levels fuel .l3 line st1 with
          | .ok st2 => .ok (pushSym st2 ⟨.MATHFN, LOG⟩)
          | r => r
        else if gn.1 = "sin" then
          match levels fuel .l3 line st1 with
          | .ok st2 => .ok (pushSym st2 ⟨.MATHFN, SIN⟩)
          | r => r
        else if gn.1 = "tan" then
          match levels fuel .l3 line st1 with
          | .ok st2 => .ok (pushSym st2 ⟨.MATHFN, TAN⟩)
          | r => r
        else
          if find_variable gn.1 ≠ varTable.length then
            .ok (pushConstant st1 (varTable.getD (find_variable gn.1) ⟨"", ⟨0, 0⟩⟩).value st1.pos)
          else .err (pushErr st1 ("unknown name: " ++ gn.1))
      else if charAt line st.pos = nulChar then
        .ok (pushErr st ("unexpected end of input"))
      else .err (pushErr st ("unexpected character"))
    | .ploop =>
      if charAt line st.pos = nulChar then .ok st
      else
        match levels fuel .l1 line st with
        | .ok st1 =>
          if charAt line st1.pos ≠ ';' ∧ charAt line st1.pos ≠ nulChar then
            .err (pushErr st1 ("expected \x27;\x27 or end of input"))
          else
            let st2 := pushSym st1 ⟨.OPERATOR, ';'.toNat⟩
            levels fuel .ploop line
              (if charAt line st2.pos = ';' then withPos st2 (nextch line st2.pos) else st2)
        | r => r

/-- Generous fuel: between two consumed characters the source's call graph
descends at most a constant number of levels. -/
def parse_fuel (line : List Char) : Nat := 8 * line.length + 8

/-- Source `Evaluator::parse`: reset the cursor, skip leading whitespace, and
run the statement loop. -/
def parse (line : List Char) : PRes :=
  levels (parse_fuel line) .ploop line ⟨[], [], eatspace line 0, []⟩

-- ## The Printer (source `Evaluator::understanding`)

/-- Source `dtostr` (`stringstream << d`), modelled exactly on integral
values of magnitude below `10 ^ 6`, where the default 6-significant-digit
stream formatting prints the plain decimal integer.  Other values fall
outside the idealized model and render as the marker `"?fmt?"`. -/
def dtostr (d : Dbl) : String :=
  if 0 ≤ d.e then
    let v := d.m * (10 : Int) ^ d.e.toNat
    if v.natAbs < 1000000 then toString v else "?fmt?"
  else
    let p : Int := (10 : Int) ^ (-d.e).toNat
    if d.m % p = 0 then
      let v := d.m / p
      if v.natAbs < 1000000 then toString v else "?fmt?"
    else "?fmt?"

/-- Outcome of `understanding`: `ok expr` is a normal return; `badSym`
models `return "????"`; `unfinished` models printing `unfinished` and then
returning `"????"`; `popEmpty` models `s.back()` on an empty stack, which in
the C++ is undefined behavior. -/
inductive URes where
  | ok (expr : String)
  | popEmpty
  | badSym
  | unfinished
deriving DecidableEq, Repr

def understandingAux : List Symb → List Dbl → List String → String → URes
  | [], _, stk, expr => if stk = [] then .ok expr else .unfinished
  | sym :: rest, consts, stk, expr =>
    match sym.type with
    | .ASSIGN => understandingAux rest consts stk expr
    | .CONSTANT => understandingAux rest consts (dtostr (consts.getD sym.value ⟨0, 0⟩) :: stk) expr
    | .MATHFN =>
      match stk with
      | [] => .popEmpty
      | b :: s1 =>
        if sym.value = COS then understandingAux rest consts (("cos(" ++ b ++ ")") :: s1) expr
        else if sym.value = EXP then understandingAux rest consts (("exp(" ++ b ++ ")") :: s1) expr
        else if sym.value = LOG then understandingAux rest consts (("log(" ++ b ++ ")") :: s1) expr
        else if sym.value = SIN then understandingAux rest consts (("sin(" ++ b ++ ")") :: s1) expr
        else if sym.value = TAN then understandingAux rest consts (("tan(" ++ b ++ ")") :: s1) expr
        else .badSym
    | .OPERATOR =>
      match stk with
      | [] => .popEmpty
      | b :: s1 =>
        if sym.value = ';'.toNat then understandingAux rest consts s1 (expr ++ b ++ ";\n")
        else if sym.value = 'n'.toNat then
          understandingAux rest consts (("(-" ++ b ++ ")") :: s1) expr
        else
          match s1 with
          | [] => .popEmpty
          | a :: s2 =>
            if sym.value = '+'.toNat then
              understandingAux rest consts (("(" ++ a ++ "+" ++ b ++ ")") :: s2) expr
            else if sym.value = '-'.toNat then
              understandingAux rest consts (("(" ++ a ++ "-" ++ b ++ ")") :: s2) expr
            else if sym.value = '*'.toNat then
              understandingAux rest consts (("(" ++ a ++ "*" ++ b ++ ")") :: s2) expr
            else if sym.value = '/'.toNat then
              understandingAux rest consts (("(" ++ a ++ "/" ++ b ++ ")") :: s2) expr
            else if sym.value = '^'.toNat then
              understandingAux rest consts (("(" ++ a ++ "^" ++ b ++ ")") :: s2) expr
            else .badSym

/-- Source `Evaluator::understanding`: replay the compiled program over a
stack of text fragments. -/
def understanding (st : PState) : URes := understandingAux st.symbols st.constants [] ""

-- ## The numeric interpreter (source `Evaluator::run`)

/-- Outcome of `run`: `ok` is `return true` with the per-statement results
printed along the way, in order; `badSym` / `unfinished` are the two
`return false` branches; `popEmpty` models `s.back()` on an empty stack
(undefined behavior in the C++).  Each failure outcome carries the results
already printed before it. -/
inductive RRes where
  | ok (results : List ℝ)
  | popEmpty (results : List ℝ)
  | badSym (results : List ℝ)
  | unfinished (results : List ℝ)

noncomputable def runAux : List Symb → List Dbl → List ℝ → List ℝ → RRes
  | [], _, stk, acc => if stk = [] then .ok acc else .unfinished acc
  | sym :: rest, consts, stk, acc =>
    match sym.type with
    | .ASSIGN => runAux rest consts stk acc
    | .CONSTANT => runAux rest consts (dblToR (consts.getD sym.value ⟨0, 0⟩) :: stk) acc
    | .MATHFN =>
      match stk with
      | [] => .popEmpty acc
      | b :: s1 =>
        if sym.value = COS then runAux rest consts (Real.cos b :: s1) acc
        else if sym.value = EXP then runAux rest consts (Real.exp b :: s1) acc
        else if sym.value = LOG then runAux rest consts (Real.log b :: s1) acc
        else if sym.value = SIN then runAux rest consts (Real.sin b :: s1) acc
        else if sym.value = TAN then runAux rest consts (Real.tan b :: s1) acc
        else .badSym acc
    | .OPERATOR =>
      match stk with
      | [] => .popEmpty acc
      | b :: s1 =>
        if sym.value = ';'.toNat then runAux rest consts s1 (acc ++ [b])
        else if sym.value = 'n'.toNat then runAux rest consts (-b :: s1) acc
        else
          match s1 with
          | [] => .popEmpty acc
          | a :: s2 =>
            if sym.value = '+'.toNat then runAux rest consts ((a + b) :: s2) acc
            else if sym.value = '-'.toNat then runAux rest consts ((a - b) :: s2) acc
            else if sym.value = '*'.toNat then runAux rest consts ((a * b) :: s2) acc
            else if sym.value = '/'.toNat then runAux rest consts ((a / b) :: s2) acc
            else if sym.value = '^'.toNat then runAux rest consts ((a ^ b) :: s2) acc
            else .badSym acc

/-- Source `Evaluator::run`: replay the compiled program over a stack of
numbers.  `pow` is idealized as real exponentiation `Real.rpow`; division is
real division (the IEEE special values of the C++ are outside the model). -/
noncomputable def run (st : PState) : RRes := runAux st.symbols st.constants [] []

-- ## The public entry point (source `Evaluator::eval`)

/-- Observable outcome of `eval`: `err` is a `false` return with no results
for the line; `ub` means an interpreter attempted to pop an empty stack
(undefined behavior in the C++, so the process does not cleanly return);
`ran ok results` is a completed replay returning `ok` after printing
`results`. -/
inductive ERes where
  | err
  | ub
  | ran (ok : Bool) (results : List ℝ)

/-- Source `Evaluator::eval`: parse, print the understanding, then run.  The
string returned by `understanding` is printed but never inspected, so only
its empty-pop case (which does not return at all) affects control flow. -/
noncomputable def eval (line : List Char) : ERes :=
  match parse line with
  | .ok st =>
    match understanding st with
    | .popEmpty => .ub
    | _ =>
      match run st with
      | .ok rs => .ran true rs
      | .popEmpty _ => .ub
      | .badSym rs => .ran false rs
      | .unfinished rs => .ran false rs
  | _ => .err

-- ## The closed instruction set (parser-output invariant)

/-- A compiled instruction from the closed set the interpreters understand:
tag `CONSTANT`, or `MATHFN` with a `MathFunctions` id, or `OPERATOR` with one
of the seven operator characters `+ - * / ^ n ;`.  In particular the unused
`ASSIGN` tag never occurs. -/
def goodSym (s : Symb) : Prop :=
  s.type = .CONSTANT ∨
  (s.type = .MATHFN ∧ s.value ∈ [EXP, COS, LOG, SIN, TAN]) ∨
  (s.type = .OPERATOR ∧
    s.value ∈ ['+'.toNat, '-'.toNat, '*'.toNat, '/'.toNat, '^'.toNat, 'n'.toNat, ';'.toNat])

instance (s : Symb) : Decidable (goodSym s) := by
  unfold goodSym; infer_instance

/-- Every instruction recorded in a parser state is from the closed set. -/
def stGood (st : PState) : Prop := ∀ s ∈ st.symbols, goodSym s

/-- The invariant on a parsing outcome: whatever state is handed back (with
`true` or with `false`) carries only closed-set instructions. -/
def resGood : PRes → Prop
  | .ok st => stGood st
  | .err st => stGood st
  | .noFuel => True

-- ## Helper lemmas

theorem stGood_pushSym {st : PState} {s : Symb} (h : stGood st) (hs : goodSym s) :
    stGood (pushSym st s) := by
  intro x hx
  simp only [pushSym, List.mem_append, List.mem_singleton] at hx
  rcases hx with h1 | rfl
  · exact h x h1
  · exact hs

theorem stGood_withPos {st : PState} {p : Nat} (h : stGood st) : stGood (withPos st p) := h

theorem stGood_pushErr {st : PState} {m : String} (h : stGood st) : stGood (pushErr st m) := h

theorem stGood_pushConstant {st : PState} {d : Dbl} {p : Nat} (h : stGood st) :
    stGood (pushConstant st d p) := by
  intro x hx
  simp only [pushConstant, List.mem_append, List.mem_singleton] at hx
  rcases hx with h1 | rfl
  · exact h x h1
  · exact Or.inl rfl

/-- Core invariant: every parsing level, on any fuel, any line and any state
whose instructions are all from the closed set, returns a state whose
instructions are all from the closed set — whether it succeeds or fails. -/
theorem levels_resGood :
    ∀ (fuel : Nat) (mode : Mode) (line : List Char) (st : PState),
      stGood st → resGood (levels fuel mode line st) := by
  intro fuel
  induction fuel with
  | zero => intro mode line st _; trivial
  | succ f ih =>
    intro mode line st h
    cases mode with
    | l1 =>
      simp only [levels]
      have h2 := ih .l2 line st h
      cases hr : levels f .l2 line st with
      | ok st1 => rw [hr] at h2; exact ih .l1loop line st1 h2
      | err st1 => rw [hr] at h2; exact h2
      | noFuel => trivial
    | l1loop =>
      simp only [levels]
      split
      next hc =>
        have h2 := ih .l2 line (withPos st (nextch line st.pos)) (stGood_withPos h)
        cases hr : levels f .l2 line (withPos st (nextch line st.pos)) with
        | ok st1 =>
          rw [hr] at h2
          refine ih .l1loop line _ (stGood_pushSym h2 ?_)
          rcases hc with hc | hc <;> rw [hc] <;> decide
        | err st1 => rw [hr] at h2; exact h2
        | noFuel => trivial
      next => exact h
    | l2 =>
      simp only [levels]
      have h2 := ih .l3 line st h
      cases hr : levels f .l3 line st with
      | ok st1 => rw [hr] at h2; exact ih .l2loop line st1 h2
      | err st1 => rw [hr] at h2; exact h2
      | noFuel => trivial
    | l2loop =>
      simp only [levels]
      split
      next hc =>
        have h2 := ih .l3 line (withPos st (nextch line st.pos)) (stGood_withPos h)
        cases hr : levels f .l3 line (withPos st (nextch line st.pos)) with
        | ok st1 =>
          rw [hr] at h2
          refine ih .l2loop line _ (stGood_pushSym h2 ?_)
          rcases hc with hc | hc <;> rw [hc] <;> decide
        | err st1 => rw [hr] at h2; exact h2
        | noFuel => trivial
      next => exact h
    | l3 =>
      simp only [levels]
      split
      next hc =>
        have h2 := ih .l3 line (withPos st (nextch line st.pos)) (stGood_withPos h)
        cases hr : levels f .l3 line (withPos st (nextch line st.pos)) with
        | ok st1 => rw [hr] at h2; exact stGood_pushSym h2 (by decide)
        | err st1 => rw [hr] at h2; exact h2
        | noFuel => trivial
      next => exact ih .l4 line st h
    | l4 =>
      simp only [levels]
      have h2 := ih .ltop line st h
      cases hr : levels f .ltop line st with
      | ok st1 => rw [hr] at h2; exact ih .l4loop line st1 h2
      | err st1 => rw [hr] at h2; exact h2
      | noFuel => trivial
    | l4loop =>
      simp only [levels]
      split
      next hc =>
        have h2 := ih .l3 line (withPos st (nextch line st.pos)) (stGood_withPos h)
        cases hr : levels f .l3 line (withPos st (nextch line st.pos)) with
        | ok st1 =>
          rw [hr] at h2
          exact ih .l4loop line _ (stGood_pushSym h2 (by decide))
        | err st1 => rw [hr] at h2; exact h2
        | noFuel => trivial
      next => exact h
    | ltop =>
      simp only [levels]
      split
      next => exact stGood_pushConstant h
      next =>
        split
        next hc =>
          have h2 := ih .l1 line (withPos st (nextch line st.pos)) (stGood_withPos h)
          cases hr : levels f .l1 line (withPos st (nextch line st.pos)) with
          | ok st1 =>
            rw [hr] at h2
            show resGood (if charAt line st1.pos = ')' then PRes.ok (withPos st1 (nextch line st1.pos))
              else PRes.err (pushErr st1 ("expected \x27)\x27")))
            split
            next => exact stGood_withPos h2
            next => exact stGood_pushErr h2
          | err st1 => rw [hr] at h2; exact h2
          | noFuel => trivial
        next =>
          split
          next hc =>
            split
            next =>
              have h2 := ih .l3 line (withPos st (eatspace line (get_name line st.pos).2))
                (stGood_withPos h)
              cases hr : levels f .l3 line (withPos st (eatspace line (get_name line st.pos).2)) with
              | ok st2 => rw [hr] at h2; exact stGood_pushSym h2 (by decide)
              | err st2 => rw [hr] at h2; exact h2
              | noFuel => trivial
            next =>
              split
              next =>
                have h2 := ih .l3 line (withPos st (eatspace line (get_name line st.pos).2))
                  (stGood_withPos h)
                cases hr : levels f .l3 line (withPos st (eatspace line (get_name line st.pos).2)) with
                | ok st2 => rw [hr] at h2; exact stGood_pushSym h2 (by decide)
                | err st2 => rw [hr] at h2; exact h2
                | noFuel => trivial
              next =>
                split
                next =>
                  have h2 := ih .l3 line (withPos st (eatspace line (get_name line st.pos).2))
                    (stGood_withPos h)
                  cases hr : levels f .l3 line (withPos st (eatspace line (get_name line st.pos).2)) with
                  | ok st2 => rw [hr] at h2; exact stGood_pushSym h2 (by decide)
                  | err st2 => rw [hr] at h2; exact h2
                  | noFuel => trivial
                next =>
                  split
                  next =>
                    have h2 := ih .l3 line (withPos st (eatspace line (get_name line st.pos).2))
                      (stGood_withPos h)
                    cases hr : levels f .l3 line (withPos st (eatspace line (get_name line st.pos).2)) with
                    | ok st2 => rw [hr] at h2; exact stGood_pushSym h2 (by decide)
                    | err st2 => rw [hr] at h2; exact h2
                    | noFuel => trivial
                  next =>
                    split
                    next =>
                      have h2 := ih .l3 line (withPos st (eatspace line (get_name line st.pos).2))
                        (stGood_withPos h)
                      cases hr : levels f .l3 line (withPos st (eatspace line (get_name line st.pos).2)) with
                      | ok st2 => rw [hr] at h2; exact stGood_pushSym h2 (by decide)
                      | err st2 => rw [hr] at h2; exact h2
                      | noFuel => trivial
                    next =>
                      split
                      next => exact stGood_pushConstant (stGood_withPos h)
                      next => exact stGood_pushErr (stGood_withPos h)
          next =>
            split
            next => exact stGood_pushErr h
            next => exact stGood_pushErr h
    | ploop =>
      simp only [levels]
      split
      next => exact h
      next =>
        have h2 := ih .l1 line st h
        cases hr : levels f .l1 line st with
        | ok st1 =>
          rw [hr] at h2
          show resGood (if charAt line st1.pos ≠ ';' ∧ charAt line st1.pos ≠ nulChar then
              PRes.err (pushErr st1 ("expected \x27;\x27 or end of input"))
            else levels f Mode.ploop line
              (if charAt line (pushSym st1 ⟨.OPERATOR, ';'.toNat⟩).pos = ';' then
                withPos (pushSym st1 ⟨.OPERATOR, ';'.toNat⟩)
                  (nextch line (pushSym st1 ⟨.OPERATOR, ';'.toNat⟩).pos)
              else pushSym st1 ⟨.OPERATOR, ';'.toNat⟩))
          split
          next => exact stGood_pushErr h2
          next =>
            refine ih .ploop line _ ?_
            split
            next => exact stGood_withPos (stGood_pushSym h2 (by decide))
            next => exact stGood_pushSym h2 (by decide)
        | err st1 => rw [hr] at h2; exact h2
        | noFuel => trivial

/-- On an all-whitespace line, `eatspaceF` runs to the end of the line
whenever it has enough fuel. -/
theorem eatspaceF_all_space (line : List Char) (hsp : ∀ c ∈ line, isspace c = true) :
    ∀ (fuel pos : Nat), line.length ≤ pos + fuel →
      eatspaceF fuel line pos = max pos line.length := by
  intro fuel
  induction fuel with
  | zero =>
    intro pos hle
    simp only [eatspaceF]
    omega
  | succ f ih =>
    intro pos hle
    by_cases hp : pos < line.length
    · have hc : isspace (charAt line pos) = true := by
        rw [charAt, List.getD_eq_getElem line nulChar hp]
        exact hsp _ (List.getElem_mem hp)
      simp only [eatspaceF, hc, if_true]
      rw [ih (pos + 1) (by omega)]
      omega
    · have hc : charAt line pos = nulChar := List.getD_eq_default line nulChar (by omega)
      have hs : isspace (charAt line pos) = false := by rw [hc]; decide
      simp only [eatspaceF, hs, Bool.false_eq_true, if_false]
      omega

theorem eatspace_all_space (line : List Char) (hsp : ∀ c ∈ line, isspace c = true) :
    eatspace line 0 = line.length := by
  rw [eatspace, eatspaceF_all_space line hsp (line.length + 1) 0 (by omega)]
  omega

-- ## Claim theorems

/-- Claim C1 (code bug): the spec says every syntax error — including
unexpected end of input — makes `eval` return an overall failure signal with
no numeric results.  The code disagrees: the `unexpected end of input` branch
of `level_top` (src/eval.cpp:363-366) prints the diagnostic but is missing a
`return false`, so on the input `1+` the parser reports success with the
error recorded and an operand-short program compiled, and `eval` then drives
`understanding` into popping an empty stack (undefined behavior) instead of
cleanly returning false. -/
theorem syntax_error_eoi_no_failure_signal :
    parse (str ("1+")) =
      PRes.ok ⟨[⟨1, 0⟩], [⟨.CONSTANT, 0⟩, ⟨.OPERATOR, 43⟩, ⟨.OPERATOR, 59⟩], 2,
        ["unexpected end of input"]⟩ ∧
    eval (str ("1+")) = ERes.ub :=
  ⟨by decide, rfl⟩

/-- Claim C2 (code bug): the spec's invariant says that whenever `parse`
returns true, neither interpreter ever pops an empty stack and both end with
an empty stack.  Because of the missing `return false` at
src/eval.cpp:363-366, the input `-` makes `parse` return true with the
program `[negate, statement-end]`, on which both `understanding` and `run`
immediately attempt to pop an empty stack. -/
theorem parse_ok_interpreters_pop_empty :
    parse (str ("-")) =
      PRes.ok ⟨[], [⟨.OPERATOR, 110⟩, ⟨.OPERATOR, 59⟩], 1, ["unexpected end of input"]⟩ ∧
    understanding ⟨[], [⟨.OPERATOR, 110⟩, ⟨.OPERATOR, 59⟩], 1, ["unexpected end of input"]⟩ =
      URes.popEmpty ∧
    run ⟨[], [⟨.OPERATOR, 110⟩, ⟨.OPERATOR, 59⟩], 1, ["unexpected end of input"]⟩ =
      RRes.popEmpty [] :=
  ⟨by decide, by decide, rfl⟩

/-- Claim C4: chained exponentiation is right-associative and a unary minus
after `^` scopes over the remainder of the right-hand chain: `2^-3^2`
compiles to `2 3 2 ^ n ^ ;`, reconstructs as `(2^(-(3^2)))`, and evaluates
to `0.001953125`. -/
theorem pow_chain_right_assoc_unary :
    parse (str ("2^-3^2")) =
      PRes.ok ⟨[⟨2, 0⟩, ⟨3, 0⟩, ⟨2, 0⟩],
        [⟨.CONSTANT, 0⟩, ⟨.CONSTANT, 1⟩, ⟨.CONSTANT, 2⟩, ⟨.OPERATOR, 94⟩, ⟨.OPERATOR, 110⟩,
         ⟨.OPERATOR, 94⟩, ⟨.OPERATOR, 59⟩], 6, []⟩ ∧
    understanding ⟨[⟨2, 0⟩, ⟨3, 0⟩, ⟨2, 0⟩],
        [⟨.CONSTANT, 0⟩, ⟨.CONSTANT, 1⟩, ⟨.CONSTANT, 2⟩, ⟨.OPERATOR, 94⟩, ⟨.OPERATOR, 110⟩,
         ⟨.OPERATOR, 94⟩, ⟨.OPERATOR, 59⟩], 6, []⟩ = URes.ok "(2^(-(3^2)));\n" ∧
    run ⟨[⟨2, 0⟩, ⟨3, 0⟩, ⟨2, 0⟩],
        [⟨.CONSTANT, 0⟩, ⟨.CONSTANT, 1⟩, ⟨.CONSTANT, 2⟩, ⟨.OPERATOR, 94⟩, ⟨.OPERATOR, 110⟩,
         ⟨.OPERATOR, 94⟩, ⟨.OPERATOR, 59⟩], 6, []⟩ = RRes.ok [(0.001953125 : ℝ)] := by
  refine ⟨by decide, by decide, ?_⟩
  have h : run ⟨[⟨2, 0⟩, ⟨3, 0⟩, ⟨2, 0⟩],
      [⟨.CONSTANT, 0⟩, ⟨.CONSTANT, 1⟩, ⟨.CONSTANT, 2⟩, ⟨.OPERATOR, 94⟩, ⟨.OPERATOR, 110⟩,
       ⟨.OPERATOR, 94⟩, ⟨.OPERATOR, 59⟩], 6, []⟩ =
      RRes.ok [dblToR ⟨2, 0⟩ ^ (-(dblToR ⟨3, 0⟩ ^ dblToR ⟨2, 0⟩))] := rfl
  rw [h]
  have h2 : dblToR ⟨2, 0⟩ = 2 := by simp [dblToR]
  have h3 : dblToR ⟨3, 0⟩ = 3 := by simp [dblToR]
  have h9 : dblToR ⟨3, 0⟩ ^ dblToR ⟨2, 0⟩ = 9 := by
    rw [h3, h2, show (2 : ℝ) = ((2 : ℕ) : ℝ) by norm_num, Real.rpow_natCast]; norm_num
  rw [h9, h2, show (-(9 : ℝ)) = ((-9 : ℤ) : ℝ) by norm_num, Real.rpow_intCast]; norm_num

/-- Claim C5: a recognized function name without parentheses consumes exactly
one operand parsed through the unary tier (`level3`): `sin cos 2` compiles
and reconstructs as `sin(cos(2))`, `sin 2^3` as `sin((2^3))`, and the unary
minus composes under application: `sin -0` evaluates to `0` and `cos -0` to
`1`. -/
theorem function_application_unary_tier :
    parse (str ("sin cos 2")) =
      PRes.ok ⟨[⟨2, 0⟩], [⟨.CONSTANT, 0⟩, ⟨.MATHFN, 1⟩, ⟨.MATHFN, 3⟩, ⟨.OPERATOR, 59⟩], 9, []⟩ ∧
    understanding ⟨[⟨2, 0⟩], [⟨.CONSTANT, 0⟩, ⟨.MATHFN, 1⟩, ⟨.MATHFN, 3⟩, ⟨.OPERATOR, 59⟩], 9, []⟩ =
      URes.ok "sin(cos(2));\n" ∧
    parse (str ("sin 2^3")) =
      PRes.ok ⟨[⟨2, 0⟩, ⟨3, 0⟩],
        [⟨.CONSTANT, 0⟩, ⟨.CONSTANT, 1⟩, ⟨.OPERATOR, 94⟩, ⟨.MATHFN, 3⟩, ⟨.OPERATOR, 59⟩], 7, []⟩ ∧
    understanding ⟨[⟨2, 0⟩, ⟨3, 0⟩],
        [⟨.CONSTANT, 0⟩, ⟨.CONSTANT, 1⟩, ⟨.OPERATOR, 94⟩, ⟨.MATHFN, 3⟩, ⟨.OPERATOR, 59⟩], 7, []⟩ =
      URes.ok "sin((2^3));\n" ∧
    parse (str ("sin -0")) =
      PRes.ok ⟨[⟨0, 0⟩], [⟨.CONSTANT, 0⟩, ⟨.OPERATOR, 110⟩, ⟨.MATHFN, 3⟩, ⟨.OPERATOR, 59⟩], 6, []⟩ ∧
    run ⟨[⟨0, 0⟩], [⟨.CONSTANT, 0⟩, ⟨.OPERATOR, 110⟩, ⟨.MATHFN, 3⟩, ⟨.OPERATOR, 59⟩], 6, []⟩ =
      RRes.ok [(0 : ℝ)] ∧
    parse (str ("cos -0")) =
      PRes.ok ⟨[⟨0, 0⟩], [⟨.CONSTANT, 0⟩, ⟨.OPERATOR, 110⟩, ⟨.MATHFN, 1⟩, ⟨.OPERATOR, 59⟩], 6, []⟩ ∧
    run ⟨[⟨0, 0⟩], [⟨.CONSTANT, 0⟩, ⟨.OPERATOR, 110⟩, ⟨.MATHFN, 1⟩, ⟨.OPERATOR, 59⟩], 6, []⟩ =
      RRes.ok [(1 : ℝ)] := by
  refine ⟨by decide, by decide, by decide, by decide, by decide, ?_, by decide, ?_⟩
  · have h : run ⟨[⟨0, 0⟩], [⟨.CONSTANT, 0⟩, ⟨.OPERATOR, 110⟩, ⟨.MATHFN, 3⟩, ⟨.OPERATOR, 59⟩],
        6, []⟩ = RRes.ok [Real.sin (-(dblToR ⟨0, 0⟩))] := rfl
    rw [h]
    simp [dblToR]
  · have h : run ⟨[⟨0, 0⟩], [⟨.CONSTANT, 0⟩, ⟨.OPERATOR, 110⟩, ⟨.MATHFN, 1⟩, ⟨.OPERATOR, 59⟩],
        6, []⟩ = RRes.ok [Real.cos (-(dblToR ⟨0, 0⟩))] := rfl
    rw [h]
    simp [dblToR]

/-- Claim C6: at parse time an identifier resolves first against the fixed
function-name set, then by exact match in the pre-seeded variable table
(`e`, `pi`); an identifier matching neither, such as the lone input `foo`,
makes `parse` return false with the `unknown name` diagnostic and `eval`
report failure with no numeric output. -/
theorem identifier_resolution_order :
    parse (str ("foo")) = PRes.err ⟨[], [], 3, ["unknown name: foo"]⟩ ∧
    eval (str ("foo")) = ERes.err ∧
    parse (str ("sin 0")) =
      PRes.ok ⟨[⟨0, 0⟩], [⟨.CONSTANT, 0⟩, ⟨.MATHFN, 3⟩, ⟨.OPERATOR, 59⟩], 5, []⟩ ∧
    parse (str ("e")) =
      PRes.ok ⟨[⟨27182818284590452353603, -22⟩], [⟨.CONSTANT, 0⟩, ⟨.OPERATOR, 59⟩], 1, []⟩ ∧
    parse (str ("pi")) =
      PRes.ok ⟨[⟨31415926535897932384626, -22⟩], [⟨.CONSTANT, 0⟩, ⟨.OPERATOR, 59⟩], 2, []⟩ :=
  ⟨by decide, rfl, by decide, by decide, by decide⟩

/-- Claim C7: multiple `;`-separated statements on one line compile into a
single program, each statement closed by a statement-end instruction, and
`run` reports one numeric result per statement in source order: `2+2;3*3`
yields `4` then `9`. -/
theorem statements_compile_and_report_in_order :
    parse (str ("2+2;3*3")) =
      PRes.ok ⟨[⟨2, 0⟩, ⟨2, 0⟩, ⟨3, 0⟩, ⟨3, 0⟩],
        [⟨.CONSTANT, 0⟩, ⟨.CONSTANT, 1⟩, ⟨.OPERATOR, 43⟩, ⟨.OPERATOR, 59⟩,
         ⟨.CONSTANT, 2⟩, ⟨.CONSTANT, 3⟩, ⟨.OPERATOR, 42⟩, ⟨.OPERATOR, 59⟩], 7, []⟩ ∧
    run ⟨[⟨2, 0⟩, ⟨2, 0⟩, ⟨3, 0⟩, ⟨3, 0⟩],
        [⟨.CONSTANT, 0⟩, ⟨.CONSTANT, 1⟩, ⟨.OPERATOR, 43⟩, ⟨.OPERATOR, 59⟩,
         ⟨.CONSTANT, 2⟩, ⟨.CONSTANT, 3⟩, ⟨.OPERATOR, 42⟩, ⟨.OPERATOR, 59⟩], 7, []⟩ =
      RRes.ok [(4 : ℝ), (9 : ℝ)] := by
  refine ⟨by decide, ?_⟩
  have h : run ⟨[⟨2, 0⟩, ⟨2, 0⟩, ⟨3, 0⟩, ⟨3, 0⟩],
      [⟨.CONSTANT, 0⟩, ⟨.CONSTANT, 1⟩, ⟨.OPERATOR, 43⟩, ⟨.OPERATOR, 59⟩,
       ⟨.CONSTANT, 2⟩, ⟨.CONSTANT, 3⟩, ⟨.OPERATOR, 42⟩, ⟨.OPERATOR, 59⟩], 7, []⟩ =
      RRes.ok [dblToR ⟨2, 0⟩ + dblToR ⟨2, 0⟩, dblToR ⟨3, 0⟩ * dblToR ⟨3, 0⟩] := rfl
  rw [h]
  norm_num [dblToR]

/-- Claim C8: every instruction the parser ever appends has tag `CONSTANT`,
`MATHFN` (with a function id in the `MathFunctions` enumeration) or
`OPERATOR` (with one of the seven operator characters); the `ASSIGN` tag is
never produced on any parsing path, successful or failed. -/
theorem parse_emits_only_closed_instruction_set (line : List Char) (st : PState)
    (h : parse line = PRes.ok st ∨ parse line = PRes.err st) :
    ∀ s ∈ st.symbols, goodSym s := by
  have h0 : resGood (parse line) := by
    rw [parse]
    refine levels_resGood _ .ploop line _ ?_
    intro s hs
    simp at hs
  rcases h with h | h <;> rw [h] at h0 <;> exact h0

theorem parse_emits_only_closed_instruction_set_witness :
    goodSym ⟨SymbolType.OPERATOR, 43⟩ :=
  parse_emits_only_closed_instruction_set (str ("1+2"))
    ⟨[⟨1, 0⟩, ⟨2, 0⟩], [⟨.CONSTANT, 0⟩, ⟨.CONSTANT, 1⟩, ⟨.OPERATOR, 43⟩, ⟨.OPERATOR, 59⟩], 3, []⟩
    (Or.inl (by decide)) ⟨SymbolType.OPERATOR, 43⟩ (by decide)

/-- Claim C9: an empty line, or one consisting only of whitespace, is
accepted: `parse` succeeds with an empty program and no recorded error, and
`eval` returns success with no statement results. -/
theorem whitespace_only_line_accepted (line : List Char)
    (hsp : ∀ c ∈ line, isspace c = true) :
    parse line = PRes.ok ⟨[], [], line.length, []⟩ ∧ eval line = ERes.ran true [] := by
  have hp : parse line = PRes.ok ⟨[], [], line.length, []⟩ := by
    rw [parse, eatspace_all_space line hsp]
    obtain ⟨f, hf⟩ : ∃ f, parse_fuel line = f + 1 := ⟨8 * line.length + 7, by rw [parse_fuel]⟩
    rw [hf]
    simp only [levels]
    have hc : charAt line line.length = nulChar := by
      rw [charAt]; exact List.getD_eq_default line nulChar le_rfl
    rw [if_pos hc]
  refine ⟨hp, ?_⟩
  unfold eval
  rw [hp]
  rfl

theorem whitespace_only_line_accepted_witness :
    parse (str ("  ")) = PRes.ok ⟨[], [], (str ("  ")).length, []⟩ ∧
    eval (str ("  ")) = ERes.ran true [] :=
  whitespace_only_line_accepted (str ("  ")) (by decide)

/-- Claim C10: division by zero is not an error at the public interface:
`1/0` parses successfully and `run` returns true, reporting a result for the
statement — the division case of `run` has no error branch. -/
theorem division_by_zero_reports_result :
    parse (str ("1/0")) =
      PRes.ok ⟨[⟨1, 0⟩, ⟨0, 0⟩],
        [⟨.CONSTANT, 0⟩, ⟨.CONSTANT, 1⟩, ⟨.OPERATOR, 47⟩, ⟨.OPERATOR, 59⟩], 3, []⟩ ∧
    ∃ r : ℝ, run ⟨[⟨1, 0⟩, ⟨0, 0⟩],
        [⟨.CONSTANT, 0⟩, ⟨.CONSTANT, 1⟩, ⟨.OPERATOR, 47⟩, ⟨.OPERATOR, 59⟩], 3, []⟩ =
      RRes.ok [r] :=
  ⟨by decide, ⟨dblToR ⟨1, 0⟩ / dblToR ⟨0, 0⟩, rfl⟩⟩
